import Mathlib

/-!
Verification of the resilient multi-source series-acquisition layer of
`src/app.py` (a Streamlit financial dashboard).  The Python code is shallowly
embedded: pandas DataFrames indexed by timestamp with one `close` column
become lists of `(timestamp, value)` pairs over `ℚ`; Python exceptions become
`Except`; the provider responses that the code reacts to become explicit
environment values.  Each definition mirrors one Python function and keeps
its name where Lean allows it (leading underscores are dropped).
-/

/-- Canonical time series: `(timestamp, closing value)` pairs, mirroring a
pandas DataFrame with a datetime index and a single `close` column. -/
abbrev Series := List (Nat × ℚ)

/-- Diagnostic entry appended by `_ibov_series_impl` for each provider step:
`{"provider":…, "step":…, "ok":…, "rows":…, "status":…, "note":…, "url":…}`. -/
structure AttemptRecord where
  provider : String
  step : String
  ok : Bool
  rows : Nat
  status : Option Int
  note : String
  url : String
deriving Repr, DecidableEq

/-- Raw outcome of one provider step as consumed by the resolver loop of
`_ibov_series_impl`: the DataFrame the step produced (empty on failure),
the step label, and the fields copied verbatim into the log entry. -/
structure StepOutcome where
  provider : String
  label : String
  df : Series
  status : Option Int
  note : String
  url : String
deriving Repr, DecidableEq

/-- Log entry built by `_ibov_series_impl` for one step:
`ok = not df.empty`, `rows = int(df.shape[0]) if ok else 0`. -/
def mkRecord (s : StepOutcome) : AttemptRecord :=
  { provider := s.provider, step := s.label, ok := decide (s.df ≠ []),
    rows := if s.df = [] then 0 else s.df.length,
    status := s.status, note := s.note, url := s.url }

/-- Result of running the resolver loop: the returned series, the source
label (`None` on exhaustion), the accumulated `logs`, and how many steps
were actually executed. -/
structure ResolveOut where
  df : Series
  src : Option String
  logs : List AttemptRecord
  invoked : Nat
deriving Repr, DecidableEq

/-- Fallback-resolver loop of `_ibov_series_impl` (src/app.py lines 284-393):
for each step append one log entry, return on the first non-empty DataFrame
(`if ok: return df, label, logs`), and fall through to
`return pd.DataFrame(), None, logs` when every step produced an empty one. -/
def resolve : List StepOutcome → ResolveOut
  | [] => ⟨[], none, [], 0⟩
  | s :: rest =>
    if s.df = [] then
      let r := resolve rest
      ⟨r.df, r.src, mkRecord s :: r.logs, r.invoked + 1⟩
    else ⟨s.df, some s.label, [mkRecord s], 1⟩

/-- Structured URL, mirroring `urllib.parse.urlsplit`: scheme, network
location, path, query (as the key-value pairs `parse_qsl` yields) and
fragment. -/
structure UrlParts where
  scheme : String
  netloc : String
  path : String
  query : List (String × String)
  fragment : String
deriving Repr, DecidableEq

/-- Python `str.lower()`, applied character by character. -/
def strLower (s : String) : String := ⟨s.data.map Char.toLower⟩

/-- Credential-like query-parameter names checked by `_mask_url`
(`if k.lower() in ("apikey", "api_key", "key", "token")`). -/
def isCredKey (k : String) : Bool :=
  ["apikey", "api_key", "key", "token"].contains (strLower k)

/-- One step of Python `dict(...)` construction from a pair list: a repeated
key updates the value in place, a new key is appended at the end. -/
def upsert (acc : List (String × String)) (kv : String × String) :
    List (String × String) :=
  if acc.any (fun p => p.1 = kv.1) then
    acc.map (fun p => if p.1 = kv.1 then (p.1, kv.2) else p)
  else acc ++ [kv]

/-- Python `dict(parse_qsl(query))`: collapse duplicate keys, keeping the
last value and the insertion order of first occurrences. -/
def dictOfPairs (q : List (String × String)) : List (String × String) :=
  q.foldl upsert []

/-- Query rewriting done by `_mask_url`: every parameter whose lowercased
name is credential-like gets the value `"****"`. -/
def maskQueryDict (q : List (String × String)) : List (String × String) :=
  (dictOfPairs q).map (fun p => if isCredKey p.1 then (p.1, "****") else p)

/-- Embedding of `_mask_url` (src/app.py lines 83-93): split the URL, mask
credential-like query parameters, reassemble the other components as-is. -/
def mask_url (u : UrlParts) : UrlParts :=
  { u with query := maskQueryDict u.query }

/-- Embedding of `_safe_get` (src/app.py lines 95-112).  `net` is the outcome
of `REQ.get` (final status, final URL, body text) or the exception it raised;
`prepared` is the outcome of `requests.Request(...).prepare()` in the
exception branch; `url` is the raw argument used as last-resort fallback.
Always returns `(status?, safe_url, text_excerpt)`, never an exception. -/
def safe_get (net : Except String (Int × UrlParts × String))
    (prepared : Except String UrlParts) (url : UrlParts) :
    Except String (Option Int × UrlParts × String) :=
  match net with
  | .ok (status, finalUrl, text) => .ok (some status, mask_url finalUrl, text.take 500)
  | .error e =>
    match prepared with
    | .ok pu => .ok (none, mask_url pu, "EXCEPTION: " ++ e)
    | .error _ => .ok (none, url, "EXCEPTION: " ++ e)

/-- Row of a raw provider payload after `pd.to_numeric(..., errors="coerce")`:
a timestamp with an optionally-parsed closing value (`none` models NaN).
`dropna` keeps exactly the parsed rows. -/
def dropnaRow (p : Nat × Option ℚ) : Option (Nat × ℚ) :=
  p.2.map (fun v => (p.1, v))

/-- Comparison used by `sort_index()`: order rows by timestamp. -/
def rowLe {α : Type} (p q : Nat × α) : Prop := p.1 ≤ q.1

instance {α : Type} : DecidableRel (@rowLe α) := fun p q => Nat.decLe p.1 q.1

instance {α : Type} : IsTotal (Nat × α) rowLe := ⟨fun a b => Nat.le_total a.1 b.1⟩

instance {α : Type} : IsTrans (Nat × α) rowLe := ⟨fun _ _ _ => Nat.le_trans⟩

/-- DataFrame pipeline shared by the Alpha Vantage and brapi adapters:
`pd.DataFrame(ts).T.sort_index()` (or `set_index(...).sort_index()`) followed
by `pd.to_numeric(..., errors="coerce")` and `dropna()` — sort the raw
keyed rows by timestamp, then drop the rows whose value failed to parse. -/
def buildSeries (raw : List (Nat × Option ℚ)) : Series :=
  (raw.insertionSort rowLe).filterMap dropnaRow

/-- DataFrame pipeline of `_yahoo_chart` (src/app.py lines 218-219):
`pd.DataFrame({"dt": ts, "close": closes}).dropna()` then
`set_index("dt").sort_index()` — zip the parallel `timestamp` and `close`
arrays, drop null closes, sort by timestamp (duplicates are kept). -/
def yahooBuild (ts : List Nat) (closes : List (Option ℚ)) : Series :=
  ((ts.zip closes).filterMap dropnaRow).insertionSort rowLe

/-- Environment of one `av_fx_intraday` run: whether `ALPHA_KEY` is set, and
for each of the two endpoints the outcome of `REQ.get` (outer `Except`), of
`r.json()` (inner `Except`) and of `.get("Time Series FX (…)")` (the
`Option`), the payload being the timestamp-keyed close rows. -/
structure AvEnv where
  hasKey : Bool
  intradayResp : Except String (Except String (Option (List (Nat × Option ℚ))))
  dailyResp : Except String (Except String (Option (List (Nat × Option ℚ))))

/-- First `try` block of `av_fx_intraday` (src/app.py lines 118-128): fetch
the intraday endpoint, and return a series only when the payload key is
present and the parsed frame is non-empty; a raised exception surfaces as
`.error` (to be swallowed by the caller's `except: pass`). -/
def av_try_intraday
    (net : Except String (Except String (Option (List (Nat × Option ℚ))))) :
    Except String (Option (Series × String)) := do
  let j ← net
  let ts ← j
  match ts with
  | none => pure none
  | some raw =>
    let df := buildSeries raw
    if df = [] then pure none else pure (some (df, "intraday"))

/-- Second `try` block of `av_fx_intraday` (src/app.py lines 129-138): fetch
the daily endpoint and, when the payload key is present, return the parsed
frame unconditionally (even if empty after `dropna`). -/
def av_try_daily
    (net : Except String (Except String (Option (List (Nat × Option ℚ))))) :
    Except String (Option (Series × String)) := do
  let j ← net
  let ts ← j
  match ts with
  | none => pure none
  | some raw => pure (some (buildSeries raw, "daily"))

/-- Embedding of `av_fx_intraday` (src/app.py lines 115-139): no key means an
immediate `(empty, "no-key")`; otherwise try intraday, fall back to daily on
exception or missing/empty data (`except Exception: pass`), and finally
return `(empty, "empty")`.  The outer `Except` records whether the adapter
itself propagates an exception to its caller. -/
def av_fx_intraday (env : AvEnv) : Except String (Series × String) :=
  if !env.hasKey then .ok ([], "no-key")
  else
    match av_try_intraday env.intradayResp with
    | .ok (some r) => .ok r
    | _ =>
      match av_try_daily env.dailyResp with
      | .ok (some r) => .ok r
      | _ => .ok ([], "empty")

/-- Outcome of contacting one host inside the two-host loops of
`_yahoo_chart` (`query1`/`query2`) and `_stooq_ibov_daily` (`.com`/`.pl`):
the sanitized URL, HTTP status, failure note and — when the host's payload
parsed far enough for the function to `return` — the resulting DataFrame
(which may still be empty after `dropna`). -/
structure HostAttempt where
  url : String
  status : Option Int
  note : String
  result? : Option Series
deriving Repr, DecidableEq

/-- Two-host fallback loop of `_yahoo_chart` (src/app.py lines 198-223):
try `query1`, on failure try `query2`, reporting the last host's error
tuple (`last_err`, updated on every failed host) on double failure.  The
final `Nat` counts the physical HTTP calls made (one per host tried). -/
def hostFallbackRun (h1 h2 : HostAttempt) :
    (Series × Option Int × String × String) × Nat :=
  match h1.result? with
  | some df => ((df, h1.status, "ok", h1.url), 1)
  | none =>
    match h2.result? with
    | some df => ((df, h2.status, "ok", h2.url), 2)
    | none => (([], h2.status, h2.note, h2.url), 2)

/-- Embedding of `_stooq_ibov_daily` (src/app.py lines 225-243): try
`stooq.com` then `stooq.pl`; a host whose body parses to a `Date`/`Close`
CSV makes the function return its table with that host's status, URL and
note `"ok"`; when both hosts fail it returns the fixed
`(empty, None, "", "sem resposta válida do Stooq")`.  The final `Nat`
counts the physical HTTP calls made (one `_safe_get` per host tried). -/
def stooqDailyRun (h1 h2 : HostAttempt) :
    (Series × Option Int × String × String) × Nat :=
  match h1.result? with
  | some df => ((df, h1.status, "ok", h1.url), 1)
  | none =>
    match h2.result? with
    | some df => ((df, h2.status, "ok", h2.url), 2)
    | none => (([], none, "sem resposta válida do Stooq", ""), 2)

/-- Stooq step of `_ibov_series_impl` (src/app.py lines 331-335): one call
to `_stooq_ibov_daily` and exactly one appended log entry, whatever the
outcome. -/
def ibovStooqStep (h1 h2 : HostAttempt) : AttemptRecord × Nat :=
  let out := stooqDailyRun h1 h2
  (mkRecord ⟨"Stooq", "bvsp diário", out.1.1, out.1.2.1, out.1.2.2.1, out.1.2.2.2⟩, out.2)

/-- Yahoo-combo stage of `_ibov_series_impl` (src/app.py lines 288-302): for
each `(range, interval)` combo call `_yahoo_chart` once, append exactly one
log entry, and stop at the first non-empty frame.  Also returns the total
number of physical HTTP calls the stage made. -/
def ibovYahooStage : List (String × HostAttempt × HostAttempt) → ResolveOut × Nat
  | [] => (⟨[], none, [], 0⟩, 0)
  | (label, h1, h2) :: rest =>
    let out := hostFallbackRun h1 h2
    let df := out.1.1
    let record := mkRecord ⟨"YahooChart", label, df, out.1.2.1, out.1.2.2.1, out.1.2.2.2⟩
    if df = [] then
      let r := ibovYahooStage rest
      (⟨r.1.df, r.1.src, record :: r.1.logs, r.1.invoked + 1⟩, out.2 + r.2)
    else (⟨df, some label, [record], 1⟩, out.2)

/-- Outcome of one brapi granularity combo as yielded by
`_brapi_daily_series`: the parsed close series (empty on failure), plus the
metadata of its single `_safe_get` call. -/
structure BrapiCombo where
  label : String
  df : Series
  status : Option Int
  note : String
  url : String
deriving Repr, DecidableEq

/-- brapi stage of `_ibov_series_impl` (src/app.py lines 245-268 and
337-342): the generator performs one `_safe_get` call and one `yield` per
combo, the consumer appends one log entry per yielded item and stops at the
first non-empty frame (unconsumed combos are never fetched).  The final
`Nat` counts the physical HTTP calls made. -/
def ibovBrapiStage : List BrapiCombo → ResolveOut × Nat
  | [] => (⟨[], none, [], 0⟩, 0)
  | c :: rest =>
    let record := mkRecord ⟨"brapi", c.label, c.df, c.status, c.note, c.url⟩
    if c.df = [] then
      let r := ibovBrapiStage rest
      (⟨r.1.df, r.1.src, record :: r.1.logs, r.1.invoked + 1⟩, 1 + r.2)
    else (⟨c.df, some c.label, [record], 1⟩, 1)

/-- Embedding of `last_price` (src/app.py lines 80-81): the value of the
last row, or `None` for an empty frame. -/
def last_price (df : Series) : Option ℚ := df.getLast?.map Prod.snd

/-- Embedding of `_normalize_to_level` (src/app.py lines 270-282): return
the proxy unscaled when it is empty, when the target level is unavailable or
when the proxy's last value is missing or zero; otherwise multiply every
close by `factor = target_last / last_price(proxy)`. -/
def normalize_to_level (proxy_df : Series) (target_last : Option ℚ) : Series :=
  if proxy_df = [] then proxy_df
  else
    match target_last with
    | none => proxy_df
    | some t =>
      match last_price proxy_df with
      | none => proxy_df
      | some pl =>
        if pl = 0 then proxy_df
        else proxy_df.map (fun p => (p.1, p.2 * (t / pl)))

/-- Outcome of contacting one Stooq host inside the inline BOVA11
proxy-Stooq loop of `_ibov_series_impl` (src/app.py lines 364-381):
`unreachable` — non-200 status, missing response or empty body, so the
`if status == 200 and r and r.text` guard fails and nothing is logged;
`noColumns` — the CSV parsed but has no `Date`/`Close` columns, falling
through without logging; `table` — a `Date`/`Close` table (possibly empty
after `dropna`), logged once and returned when non-empty; `exc` — an
exception mid-parse, logged once with `ok=False`.  Every case consumed
exactly one `_safe_get` HTTP call. -/
inductive ProxyStooqHost where
  | unreachable (status : Option Int) (url : String)
  | noColumns (status : Int) (url : String)
  | table (df : Series) (status : Int) (url : String)
  | exc (msg : String) (url : String)
deriving Repr, DecidableEq

/-- Log entries the proxy-Stooq loop appends for one host: none for an
unreachable host or a column-less CSV, one for a parsed table (note
`"ok" if ok else "vazio"`), and one `ok=False` entry for an exception
(whose string status `"EXC"` is modelled as a missing numeric status). -/
def proxyStooqHostLogs : ProxyStooqHost → List AttemptRecord
  | .unreachable _ _ => []
  | .noColumns _ _ => []
  | .table df status url =>
      [mkRecord ⟨"Stooq", "proxy BOVA11 diário", df, some status,
        if df = [] then "vazio" else "ok", url⟩]
  | .exc msg url =>
      [⟨"Stooq", "proxy BOVA11 diário", false, 0, none, msg.take 140, url⟩]

/-- Return taken by one proxy-Stooq host: the parsed table when non-empty
(the `if ok: return` branch fires), otherwise nothing. -/
def proxyStooqHostReturn : ProxyStooqHost → Option Series
  | .table df _ _ => if df = [] then none else some df
  | _ => none

/-- Inline BOVA11 proxy-Stooq stage of `_ibov_series_impl` (src/app.py
lines 364-381): try `stooq.com` then `stooq.pl`, appending the per-host
log entries described above; the first host with a non-empty table ends
the stage with the normalized series under the fixed label
`"proxy BOVA11 Stooq (normalizado)"`.  The final `Nat` counts the
physical HTTP calls (one `_safe_get` per host tried). -/
def proxyStooqStage (h1 h2 : ProxyStooqHost) (stooq_last : Option ℚ) :
    Option (Series × String) × List AttemptRecord × Nat :=
  match proxyStooqHostReturn h1 with
  | some df =>
      (some (normalize_to_level df stooq_last, "proxy BOVA11 Stooq (normalizado)"),
       proxyStooqHostLogs h1, 1)
  | none =>
    match proxyStooqHostReturn h2 with
    | some df =>
        (some (normalize_to_level df stooq_last, "proxy BOVA11 Stooq (normalizado)"),
         proxyStooqHostLogs h1 ++ proxyStooqHostLogs h2, 2)
    | none => (none, proxyStooqHostLogs h1 ++ proxyStooqHostLogs h2, 2)

/-- Modelled from the spec: the TTL cache around fetch operations is provided
by the Streamlit library (`@st.cache_data(ttl=…)` in src/app.py), whose code
is not part of this repository; the spec's §4.4 `getOrFetch` contract is
modelled instead.  A cache entry is a stored result with its timestamp. -/
structure CacheEntry (α : Type) where
  result : α
  storedAt : Nat
deriving Repr, DecidableEq

/-- Result of one cached access: the returned value, the entry now held by
the cache, and how many times the underlying fetch function ran (0 or 1). -/
structure CacheStep (α : Type) where
  result : α
  entry : CacheEntry α
  calls : Nat
deriving Repr, DecidableEq

/-- Modelled from the spec: `getOrFetch(key, ttl, fn)` of §4.4 — on a fresh
hit (`now - storedAt < ttl`) return the stored result with zero fetches; on
a miss or stale hit run the fetch (`fetched` is the value it would produce),
store it unconditionally with a fresh timestamp, and return it. -/
def getOrFetch {α : Type} (now ttl : Nat) (cache : Option (CacheEntry α))
    (fetched : α) : CacheStep α :=
  match cache with
  | some e => if now - e.storedAt < ttl then ⟨e.result, e, 0⟩ else ⟨fetched, ⟨fetched, now⟩, 1⟩
  | none => ⟨fetched, ⟨fetched, now⟩, 1⟩

/-- Embedding of `ibov_series_cached` (src/app.py lines 395-398):
`@st.cache_data(ttl=1500)` memoizes `(df, src)` of `_ibov_series_impl(False)`
— the diagnostics are discarded before storing.  `impl` is the triple the
chain would produce if run now. -/
def ibov_series_cached (now : Nat)
    (cache : Option (CacheEntry (Series × Option String)))
    (impl : Series × Option String × List AttemptRecord) :
    CacheStep (Series × Option String) :=
  getOrFetch now 1500 cache (impl.1, impl.2.1)

/-- Embedding of `ibov_series` (src/app.py lines 400-405): with `debug` or
`force` set, run `_ibov_series_impl(debug=True)` directly — the TTL cache is
neither consulted nor written; otherwise go through the cache and return the
cached pair with an empty diagnostics list.  Returns the triple handed to
the caller and the cache entry after the call. -/
def ibov_series (debug force : Bool) (now : Nat)
    (cache : Option (CacheEntry (Series × Option String)))
    (impl : Series × Option String × List AttemptRecord) :
    (Series × Option String × List AttemptRecord) ×
      Option (CacheEntry (Series × Option String)) :=
  if debug || force then (impl, cache)
  else
    let s := ibov_series_cached now cache impl
    ((s.result.1, s.result.2, []), some s.entry)

/-- Modelled from the spec: no Quiet-Hours Gate appears in src/app.py (only
spec §4.5 describes it), so its transition rule is modelled from the spec's
words — ACTIVE iff the local wall-clock hour lies in
`[quiet_start, 24) ∪ [0, quiet_end)`, evaluated once at session start. -/
def quiet_hours_active (quiet_start quiet_end hour : Nat) : Bool :=
  decide ((quiet_start ≤ hour ∧ hour < 24) ∨ hour < quiet_end)

/-- Modelled from the spec: a quantity request behind the Quiet-Hours Gate
(spec §4.5, absent from src/app.py).  While ACTIVE the request returns
whatever the cache holds (possibly nothing, rendered as `empty`), performs
zero fetches and leaves the cache untouched; while INACTIVE it flows through
the TTL cache.  The returned `Nat` counts fetch-function (and hence
resolver/network) invocations. -/
def request_quantity {α : Type} (active : Bool) (now ttl : Nat)
    (cache : Option (CacheEntry α)) (empty fetched : α) :
    α × Option (CacheEntry α) × Nat :=
  if active then ((cache.map (fun e => e.result)).getD empty, cache, 0)
  else
    let s := getOrFetch now ttl cache fetched
    (s.result, some s.entry, s.calls)

/-- C2: the Fallback Resolver invokes steps strictly in configured order and
stops at the first step returning a non-empty series: if steps `1..k-1`
fail or come back empty and step `k` succeeds, exactly `k` steps run
(the steps after `k` are never invoked), the result carries step `k`'s
series and label, and the diagnostics aggregate the records of steps
`1..k` in invocation order, retaining the failed attempts. -/
theorem resolver_first_success (pre : List StepOutcome) (succ : StepOutcome)
    (post : List StepOutcome) (hpre : ∀ s ∈ pre, s.df = []) (hsucc : succ.df ≠ []) :
    resolve (pre ++ succ :: post) =
      ⟨succ.df, some succ.label, pre.map mkRecord ++ [mkRecord succ], pre.length + 1⟩ := by
  induction pre with
  | nil => simp [resolve, hsucc]
  | cons a as ih =>
    have ha : a.df = [] := hpre a (by simp)
    have has : ∀ s ∈ as, s.df = [] := fun s hs => hpre s (by simp [hs])
    simp [resolve, ha, ih has]

/-- Witness for C2: a concrete chain where the first two steps are empty and
the third succeeds; only three steps are invoked and all three records kept. -/
theorem resolver_first_success_witness :
    resolve [⟨"YahooChart", "YahooChart 1d/1m", [], some 500, "err", "u1"⟩,
             ⟨"YF", "^BVSP intraday 1m", [], none, "", "yfinance"⟩,
             ⟨"Stooq", "bvsp diário", [(1, 100000)], some 200, "ok", "u3"⟩,
             ⟨"brapi", "brapi 1mo/1d", [(1, 1)], some 200, "ok", "u4"⟩] =
      ⟨[(1, 100000)], some "bvsp diário",
       [mkRecord ⟨"YahooChart", "YahooChart 1d/1m", [], some 500, "err", "u1"⟩,
        mkRecord ⟨"YF", "^BVSP intraday 1m", [], none, "", "yfinance"⟩,
        mkRecord ⟨"Stooq", "bvsp diário", [(1, 100000)], some 200, "ok", "u3"⟩], 3⟩ := by
  have h := resolver_first_success
    [⟨"YahooChart", "YahooChart 1d/1m", [], some 500, "err", "u1"⟩,
     ⟨"YF", "^BVSP intraday 1m", [], none, "", "yfinance"⟩]
    ⟨"Stooq", "bvsp diário", [(1, 100000)], some 200, "ok", "u3"⟩
    [⟨"brapi", "brapi 1mo/1d", [(1, 1)], some 200, "ok", "u4"⟩]
    (by decide) (by decide)
  simpa using h

/-- C6: when every step of the chain fails or returns an empty series, the
resolver returns an empty series with a null source label together with all
accumulated diagnostics — a value, never an exception; moreover a step that
errored and a step that returned an empty series are treated identically
(the continuation's series, label and invocation count do not depend on the
failed step's status or note). -/
theorem resolver_exhaustion_safe :
    (∀ chain : List StepOutcome, (∀ s ∈ chain, s.df = []) →
      resolve chain = ⟨[], none, chain.map mkRecord, chain.length⟩)
    ∧ (∀ s₁ s₂ : StepOutcome, ∀ rest : List StepOutcome,
        s₁.df = [] → s₂.df = [] →
        (resolve (s₁ :: rest)).df = (resolve (s₂ :: rest)).df
        ∧ (resolve (s₁ :: rest)).src = (resolve (s₂ :: rest)).src
        ∧ (resolve (s₁ :: rest)).invoked = (resolve (s₂ :: rest)).invoked) := by
  constructor
  · intro chain h
    induction chain with
    | nil => rfl
    | cons a as ih =>
      have ha : a.df = [] := h a (by simp)
      have has : ∀ s ∈ as, s.df = [] := fun s hs => h s (by simp [hs])
      simp [resolve, ha, ih has]
  · intro s₁ s₂ rest h₁ h₂
    simp [resolve, h₁, h₂]

/-- Witness for C6: a concrete two-step chain (one HTTP error, one empty
series) exhausts and yields the empty series, null label and both records. -/
theorem resolver_exhaustion_safe_witness :
    resolve [⟨"YahooChart", "YahooChart 1d/1m", [], some 500, "err", "u1"⟩,
             ⟨"Stooq", "bvsp diário", [], some 200, "vazio", "u2"⟩] =
      ⟨[], none,
       [mkRecord ⟨"YahooChart", "YahooChart 1d/1m", [], some 500, "err", "u1"⟩,
        mkRecord ⟨"Stooq", "bvsp diário", [], some 200, "vazio", "u2"⟩], 2⟩ := by
  have h := resolver_exhaustion_safe.1
    [⟨"YahooChart", "YahooChart 1d/1m", [], some 500, "err", "u1"⟩,
     ⟨"Stooq", "bvsp diário", [], some 200, "vazio", "u2"⟩] (by decide)
  simpa using h

/-- C4: in a URL produced by the masking function, the value of every
credential-like query parameter (`apikey`, `api_key`, `key`, `token`, in any
letter case) is the placeholder `"****"`; the original credential value is
never stored in an attempt record's URL. -/
theorem mask_url_redacts_credentials (u : UrlParts) (kv : String × String)
    (hmem : kv ∈ (mask_url u).query) (hcred : isCredKey kv.1 = true) :
    kv.2 = "****" := by
  rcases List.mem_map.1 hmem with ⟨p, _, hfp⟩
  by_cases hp : isCredKey p.1 = true
  · rw [if_pos hp] at hfp
    exact (congrArg Prod.snd hfp).symm ▸ rfl
  · rw [if_neg hp] at hfp
    subst hfp
    exact absurd hcred hp

/-- Witness for C4: masking a brapi-style URL carrying `token=SECRET` yields
a query containing `token=****`, whose value the theorem shows is masked. -/
theorem mask_url_redacts_credentials_witness :
    (("token", "****") ∈ (mask_url
        ⟨"https", "brapi.dev", "/api/quote/IBOV",
         [("range", "1mo"), ("token", "SECRET")], ""⟩).query)
    ∧ (("token", "****") : String × String).2 = "****" :=
  ⟨by decide,
   mask_url_redacts_credentials
     ⟨"https", "brapi.dev", "/api/quote/IBOV",
      [("range", "1mo"), ("token", "SECRET")], ""⟩
     ("token", "****") (by decide) (by decide)⟩

/-- C7: for every input — missing key, raised network exception, malformed
JSON, missing payload key, non-numeric values, any combination at either
endpoint — the `av_fx_intraday` adapter and the `_safe_get` helper return a
value and never propagate an exception to their caller. -/
theorem adapter_no_exception :
    (∀ env : AvEnv, ∃ r, av_fx_intraday env = Except.ok r)
    ∧ (∀ (net : Except String (Int × UrlParts × String))
        (prepared : Except String UrlParts) (url : UrlParts),
        ∃ r, safe_get net prepared url = Except.ok r) := by
  constructor
  · intro env
    unfold av_fx_intraday
    split
    · exact ⟨_, rfl⟩
    · split
      · exact ⟨_, rfl⟩
      · split
        · exact ⟨_, rfl⟩
        · exact ⟨_, rfl⟩
  · intro net prepared url
    unfold safe_get
    split
    · exact ⟨_, rfl⟩
    · split <;> exact ⟨_, rfl⟩

/-- Witness for C7: a run where the intraday request times out and the daily
response is malformed JSON still returns a value. -/
theorem adapter_no_exception_witness :
    ∃ r, av_fx_intraday
        ⟨true, Except.error "timeout", Except.ok (Except.error "bad json")⟩
      = Except.ok r :=
  adapter_no_exception.1
    ⟨true, Except.error "timeout", Except.ok (Except.error "bad json")⟩

/-- C3: proxy normalization — with an unavailable target level, or a proxy
whose last value is zero, the series is returned unscaled; otherwise, with
proxy last value `pl ≠ 0` and target last known value `t`, every value is
multiplied by `t / pl` and the normalized series' last value is exactly `t`. -/
theorem normalize_to_level_spec :
    (∀ proxy_df : Series, normalize_to_level proxy_df none = proxy_df)
    ∧ (∀ (proxy_df : Series) (t : ℚ), last_price proxy_df = some 0 →
        normalize_to_level proxy_df (some t) = proxy_df)
    ∧ (∀ (proxy_df : Series) (t pl : ℚ), last_price proxy_df = some pl → pl ≠ 0 →
        normalize_to_level proxy_df (some t)
          = proxy_df.map (fun p => (p.1, p.2 * (t / pl)))
        ∧ last_price (normalize_to_level proxy_df (some t)) = some t) := by
  refine ⟨?_, ?_, ?_⟩
  · intro l
    by_cases h : l = [] <;> simp [normalize_to_level, h]
  · intro l t hlast
    by_cases h : l = [] <;> simp [normalize_to_level, h, hlast]
  · intro l t pl hlast hpl
    have hne : l ≠ [] := by
      intro h
      subst h
      simp [last_price] at hlast
    have hmap : normalize_to_level l (some t)
        = l.map (fun p => (p.1, p.2 * (t / pl))) := by
      simp [normalize_to_level, hne, hlast, hpl]
    refine ⟨hmap, ?_⟩
    rcases Option.map_eq_some'.1 hlast with ⟨q, hq, hq2⟩
    rw [hmap]
    simp [last_price, List.getLast?_map, hq, hq2, mul_comm pl (t / pl),
      div_mul_cancel₀ t hpl]

/-- Witness for C3: proxy `[(0, 2), (1, 4)]` with target level 8 (factor 2)
normalizes to last value exactly 8. -/
theorem normalize_to_level_spec_witness :
    last_price (normalize_to_level [(0, 2), (1, 4)] (some 8)) = some 8 :=
  (normalize_to_level_spec.2.2 [(0, 2), (1, 4)] 8 4 (by decide) (by decide)).2

/-- C5: two cached accesses within `ttl` of the first run the fetch exactly
once — the second returns the stored result with zero fetch calls — while an
access after the TTL elapsed fetches again and stores the new result
unconditionally (whatever it is) with a fresh timestamp. -/
theorem getOrFetch_ttl_idempotent {α : Type} (ttl t0 t1 t2 : Nat) (f0 f1 f2 : α)
    (hfresh : t1 - t0 < ttl) (hstale : ttl ≤ t2 - t0) :
    (getOrFetch t0 ttl none f0).calls = 1
    ∧ (getOrFetch t0 ttl none f0).entry = ⟨f0, t0⟩
    ∧ (getOrFetch t1 ttl (some (getOrFetch t0 ttl none f0).entry) f1).calls = 0
    ∧ (getOrFetch t1 ttl (some (getOrFetch t0 ttl none f0).entry) f1).result = f0
    ∧ (getOrFetch t1 ttl (some (getOrFetch t0 ttl none f0).entry) f1).entry = ⟨f0, t0⟩
    ∧ (getOrFetch t2 ttl (some (getOrFetch t0 ttl none f0).entry) f2).calls = 1
    ∧ (getOrFetch t2 ttl (some (getOrFetch t0 ttl none f0).entry) f2).result = f2
    ∧ (getOrFetch t2 ttl (some (getOrFetch t0 ttl none f0).entry) f2).entry = ⟨f2, t2⟩ := by
  simp [getOrFetch, hfresh, Nat.not_lt.2 hstale]

/-- Witness for C5, spec Scenario C: TTL 1500, fetch at `t=0`, hit at
`t=1000` with zero new calls, refetch at `t=1600` stored (even an
empty/failed result, here `0`) with a fresh timestamp. -/
theorem getOrFetch_ttl_idempotent_witness :
    (getOrFetch 0 1500 none (5 : Nat)).calls = 1
    ∧ (getOrFetch 1000 1500 (some (getOrFetch 0 1500 none (5 : Nat)).entry) 7).calls = 0
    ∧ (getOrFetch 1000 1500 (some (getOrFetch 0 1500 none (5 : Nat)).entry) 7).result = 5
    ∧ (getOrFetch 1600 1500 (some (getOrFetch 0 1500 none (5 : Nat)).entry) 0).calls = 1
    ∧ (getOrFetch 1600 1500 (some (getOrFetch 0 1500 none (5 : Nat)).entry) 0).entry
        = ⟨0, 1600⟩ := by
  have h := getOrFetch_ttl_idempotent 1500 0 1000 1600 (5 : Nat) 7 0
    (by decide) (by decide)
  exact ⟨h.1, h.2.2.1, h.2.2.2.1, h.2.2.2.2.2.1, h.2.2.2.2.2.2.2⟩

/-- C10: calling `ibov_series` with `force=True` or `debug=True` runs the
provider chain directly (diagnostics included) and leaves the TTL cache
untouched, so a later plain call within the original TTL still returns the
previously cached pair — with an empty diagnostics list — not the
force-fetched result. -/
theorem ibov_force_bypass_no_store (now0 now1 : Nat)
    (e : CacheEntry (Series × Option String))
    (impl impl' : Series × Option String × List AttemptRecord)
    (hfresh : now1 - e.storedAt < 1500) :
    ibov_series true false now0 (some e) impl = (impl, some e)
    ∧ ibov_series false true now0 (some e) impl = (impl, some e)
    ∧ ibov_series false false now1 (some e) impl'
        = ((e.result.1, e.result.2, []), some e) := by
  simp [ibov_series, ibov_series_cached, getOrFetch, hfresh]

/-- Witness for C10: the cache holds the Stooq pair from `t=0`; a forced
fetch at `t=100` returns fresh data but stores nothing, and the plain call
at `t=1000` still serves the old cached pair with empty diagnostics. -/
theorem ibov_force_bypass_no_store_witness :
    ibov_series false true 100 (some ⟨([(1, 4)], some "Stooq"), 0⟩)
        ([(2, 5)], some "forced", [])
      = (([(2, 5)], some "forced", []), some ⟨([(1, 4)], some "Stooq"), 0⟩)
    ∧ ibov_series false false 1000 (some ⟨([(1, 4)], some "Stooq"), 0⟩)
        ([], none, [])
      = (([(1, 4)], some "Stooq", []), some ⟨([(1, 4)], some "Stooq"), 0⟩) := by
  have h := ibov_force_bypass_no_store 100 1000 ⟨([(1, 4)], some "Stooq"), 0⟩
    ([(2, 5)], some "forced", []) ([], none, []) (by decide)
  exact ⟨h.2.1, h.2.2⟩

/-- C1: while the Quiet-Hours Gate is ACTIVE — the wall-clock hour lies in
`[quiet_start, 24) ∪ [0, quiet_end)` — a quantity request performs zero
fetches (hence zero network calls), never invokes the Fallback Resolver,
returns exactly what is currently cached (possibly nothing) and leaves the
cache untouched, regardless of cache state. -/
theorem quiet_hours_zero_network {α : Type} (qs qe hour ttl now : Nat)
    (cache : Option (CacheEntry α)) (empty fetched : α)
    (hq : (qs ≤ hour ∧ hour < 24) ∨ hour < qe) :
    quiet_hours_active qs qe hour = true
    ∧ request_quantity (quiet_hours_active qs qe hour) now ttl cache empty fetched
        = ((cache.map (fun e => e.result)).getD empty, cache, 0) := by
  have h : quiet_hours_active qs qe hour = true := decide_eq_true hq
  exact ⟨h, by simp [request_quantity, h]⟩

/-- Witness for C1: at 20:00 with default boundaries 19:00-07:00 the gate is
ACTIVE and a request returns the cached series with zero fetches. -/
theorem quiet_hours_zero_network_witness :
    quiet_hours_active 19 7 20 = true
    ∧ request_quantity (quiet_hours_active 19 7 20) 50 1500
        (some (⟨[(1, 4)], 0⟩ : CacheEntry Series)) [] [(9, 9)]
      = ([(1, 4)], some ⟨[(1, 4)], 0⟩, 0) := by
  have h := quiet_hours_zero_network 19 7 20 1500 50
    (some (⟨[(1, 4)], 0⟩ : CacheEntry Series)) [] [(9, 9)]
    (Or.inl ⟨by decide, by decide⟩)
  exact ⟨h.1, by simpa using h.2⟩

/-- C8 counterexample: one `_yahoo_chart` step whose both hosts fail makes
two physical HTTP calls yet contributes exactly one `AttemptRecord` — the
record count does not equal the HTTP-call count, refuting "exactly one
AttemptRecord per physical HTTP call". -/
theorem attempt_record_per_call_cex :
    ¬ ((ibovYahooStage [("YahooChart 1d/1m",
          ⟨"u1", some 404, "no result", none⟩,
          ⟨"u2", some 404, "no result", none⟩)]).1.logs.length
        = (ibovYahooStage [("YahooChart 1d/1m",
          ⟨"u1", some 404, "no result", none⟩,
          ⟨"u2", some 404, "no result", none⟩)]).2) := by
  decide

/-- Helper: the host-fallback loop makes one HTTP call when the first host
returns and two otherwise. -/
theorem hostFallbackRun_calls (h1 h2 : HostAttempt) :
    1 ≤ (hostFallbackRun h1 h2).2 ∧ (hostFallbackRun h1 h2).2 ≤ 2 := by
  cases hr1 : h1.result? <;> cases hr2 : h2.result? <;>
    simp [hostFallbackRun, hr1, hr2]

/-- C8 amended: adapters emit at most one `AttemptRecord` per physical HTTP
call, not exactly one — and how many depends on the stage: the brapi stage
emits exactly one record per HTTP call; a `_yahoo_chart` combo step and the
`_stooq_ibov_daily` step each emit exactly one record while making one or
two HTTP calls (internal two-host fallback); and the inline BOVA11
proxy-Stooq stage emits zero, one or two records over one or two HTTP calls
(no record for an unreachable host or a column-less CSV, one per host whose
CSV parses or whose parse raises) — both the zero-record and the two-record
outcomes are exhibited concretely. -/
theorem attempt_records_per_step :
    (∀ combos, (ibovYahooStage combos).1.logs.length = (ibovYahooStage combos).1.invoked
      ∧ (ibovYahooStage combos).1.invoked ≤ (ibovYahooStage combos).2
      ∧ (ibovYahooStage combos).2 ≤ 2 * (ibovYahooStage combos).1.invoked)
    ∧ (∀ combos, (ibovBrapiStage combos).1.logs.length = (ibovBrapiStage combos).1.invoked
      ∧ (ibovBrapiStage combos).2 = (ibovBrapiStage combos).1.invoked)
    ∧ (∀ h1 h2 : HostAttempt,
        1 ≤ (ibovStooqStep h1 h2).2 ∧ (ibovStooqStep h1 h2).2 ≤ 2)
    ∧ (∀ (h1 h2 : ProxyStooqHost) (lvl : Option ℚ),
        (proxyStooqStage h1 h2 lvl).2.1.length ≤ (proxyStooqStage h1 h2 lvl).2.2
        ∧ 1 ≤ (proxyStooqStage h1 h2 lvl).2.2
        ∧ (proxyStooqStage h1 h2 lvl).2.2 ≤ 2)
    ∧ (proxyStooqStage (.unreachable (some 404) "u1") (.unreachable none "u2")
        none).2.1.length = 0
    ∧ (proxyStooqStage (.table [] 200 "u1") (.table [] 200 "u2")
        none).2.1.length = 2 := by
  have hlen : ∀ h : ProxyStooqHost, (proxyStooqHostLogs h).length ≤ 1 := by
    intro h
    cases h <;> simp [proxyStooqHostLogs]
  refine ⟨?_, ?_, ?_, ?_, by decide, by decide⟩
  · intro combos
    induction combos with
    | nil => simp [ibovYahooStage]
    | cons c rest ih =>
      rcases c with ⟨label, h1, h2⟩
      have hb := hostFallbackRun_calls h1 h2
      obtain ⟨ih1, ih2, ih3⟩ := ih
      by_cases hdf : (hostFallbackRun h1 h2).1.1 = [] <;>
        simp [ibovYahooStage, hdf] <;> omega
  · intro combos
    induction combos with
    | nil => simp [ibovBrapiStage]
    | cons c rest ih =>
      obtain ⟨ih1, ih2⟩ := ih
      by_cases hdf : c.df = []
      · simp [ibovBrapiStage, hdf]
        omega
      · simp [ibovBrapiStage, hdf]
  · intro h1 h2
    cases hr1 : h1.result? <;> cases hr2 : h2.result? <;>
      simp [ibovStooqStep, stooqDailyRun, hr1, hr2]
  · intro h1 h2 lvl
    have l1 := hlen h1
    have l2 := hlen h2
    cases hr1 : proxyStooqHostReturn h1
    · cases hr2 : proxyStooqHostReturn h2
      · simp [proxyStooqStage, hr1, hr2]
        omega
      · simp [proxyStooqStage, hr1, hr2]
        omega
    · simp [proxyStooqStage, hr1]
      omega

/-- Helper: a row surviving `dropna` keeps its timestamp and records its
parsed value. -/
theorem dropnaRow_mem {a : Nat × Option ℚ} {b : Nat × ℚ} (h : b ∈ dropnaRow a) :
    b.1 = a.1 ∧ a.2 = some b.2 := by
  rcases Option.map_eq_some'.1 (Option.mem_def.1 h) with ⟨v, hv, hb⟩
  subst hb
  exact ⟨rfl, hv⟩

/-- C9 counterexample: a Yahoo chart response with the duplicated timestamp
list `[1, 1]` produces a series whose timestamps are not strictly
increasing, refuting "strictly increasing by timestamp, no duplicate
timestamps" for every adapter-produced series. -/
theorem series_invariant_cex :
    ¬ List.Pairwise (fun p q => p.1 < q.1)
        (yahooBuild [1, 1] [some 2, some 3]) := by
  decide

/-- C9 amended: every adapter-produced series is sorted non-decreasing by
timestamp and every retained value is an actually parsed (finite) number —
non-numeric/NaN rows are dropped — but duplicate provider timestamps are
retained: strict increase holds only for the map-keyed responses (Alpha
Vantage, brapi), whose timestamp keys are necessarily distinct, not for
array-shaped responses such as Yahoo's. -/
theorem series_sorted_amended :
    (∀ (ts : List Nat) (closes : List (Option ℚ)),
      List.Pairwise rowLe (yahooBuild ts closes)
      ∧ ∀ p ∈ yahooBuild ts closes, (p.1, some p.2) ∈ ts.zip closes)
    ∧ (∀ raw : List (Nat × Option ℚ),
      List.Pairwise rowLe (buildSeries raw)
      ∧ (∀ p ∈ buildSeries raw, (p.1, some p.2) ∈ raw)
      ∧ ((raw.map Prod.fst).Nodup →
          List.Pairwise (fun p q => p.1 < q.1) (buildSeries raw))) := by
  constructor
  · intro ts closes
    constructor
    · exact List.sorted_insertionSort rowLe _
    · intro p hp
      have hp' : p ∈ (ts.zip closes).filterMap dropnaRow :=
        (List.perm_insertionSort rowLe _).subset hp
      rcases List.mem_filterMap.1 hp' with ⟨a, ha, hfa⟩
      rcases dropnaRow_mem (Option.mem_def.2 hfa) with ⟨h1, h2⟩
      have : (p.1, some p.2) = a := by
        rcases a with ⟨a1, a2⟩
        simp only at h1 h2
        simp [← h1, ← h2]
      rw [this]
      exact ha
  · intro raw
    have hs : List.Pairwise rowLe (raw.insertionSort rowLe) :=
      List.sorted_insertionSort rowLe raw
    refine ⟨?_, ?_, ?_⟩
    · apply List.pairwise_filterMap.2
      refine hs.imp ?_
      intro a a' hle b hb b' hb'
      rcases dropnaRow_mem hb with ⟨hb1, _⟩
      rcases dropnaRow_mem hb' with ⟨hb1', _⟩
      show b.1 ≤ b'.1
      rw [hb1, hb1']
      exact hle
    · intro p hp
      rcases List.mem_filterMap.1 hp with ⟨a, ha, hfa⟩
      rcases dropnaRow_mem (Option.mem_def.2 hfa) with ⟨h1, h2⟩
      have hmem : a ∈ raw := (List.perm_insertionSort rowLe raw).subset ha
      have : (p.1, some p.2) = a := by
        rcases a with ⟨a1, a2⟩
        simp only at h1 h2
        simp [← h1, ← h2]
      rw [this]
      exact hmem
    · intro hnd
      have hperm := List.perm_insertionSort rowLe raw
      have hnd' : ((raw.insertionSort rowLe).map Prod.fst).Nodup :=
        ((hperm.map Prod.fst).symm).nodup hnd
      have hne : List.Pairwise (fun a b : Nat × Option ℚ => a.1 ≠ b.1)
          (raw.insertionSort rowLe) := List.pairwise_map.1 hnd'
      have hlt : List.Pairwise (fun a b : Nat × Option ℚ => a.1 < b.1)
          (raw.insertionSort rowLe) :=
        (hs.and hne).imp (fun h => lt_of_le_of_ne h.1 h.2)
      apply List.pairwise_filterMap.2
      refine hlt.imp ?_
      intro a a' hlt' b hb b' hb'
      rcases dropnaRow_mem hb with ⟨hb1, _⟩
      rcases dropnaRow_mem hb' with ⟨hb1', _⟩
      show b.1 < b'.1
      rw [hb1, hb1']
      exact hlt'

/-- Witness for C9 amended: a map-keyed payload with distinct timestamps
yields a strictly increasing series. -/
theorem series_sorted_amended_witness :
    List.Pairwise (fun p q => p.1 < q.1)
      (buildSeries [(2, some 5), (1, some 4)]) :=
  (series_sorted_amended.2 [(2, some 5), (1, some 4)]).2.2 (by decide)
